import Mathlib

/-!
Verification of the speed-docs GitHub action deployment pipeline
(`src/index.ts`, bundled variant): filesystem synchronization
(`copyDirectory` and the remove-all-except-`.git` loop), the git branch
reconciliation fallback chain, commit/push logic with the forced-push
retry, workspace cleanup, credential handling, and the top-level `run`
entry point.
-/

namespace SpeedDocs

/-! ## Filesystem model

A file is its byte list; a directory is an association list from entry
names to entries, in `readdirSync` order.  This embeds the trees that
`copyDirectory`, `fs.readdirSync`, `fs.rmSync`/`fs.unlinkSync` and
`fs.copyFileSync` operate on. -/

inductive FsEntry where
  | file (bytes : List Nat)
  | dir (entries : List (String × FsEntry))
deriving Repr

/-- `fs.existsSync`-style lookup of a name among a directory's entries. -/
def lookupEntry (name : String) : List (String × FsEntry) → Option FsEntry
  | [] => none
  | (n, e) :: rest => if n = name then some e else lookupEntry name rest

/-- Whether a directory listing contains an entry with the given name. -/
def hasName (name : String) : List (String × FsEntry) → Bool
  | [] => false
  | (n, _) :: rest => if n = name then true else hasName name rest

/-- Writing entry `e` at `name`: overwrite an existing entry of that
name, otherwise append (a fresh file/directory appears at the end of the
listing). -/
def insertEntry (name : String) (e : FsEntry) : List (String × FsEntry) →
    List (String × FsEntry)
  | [] => [(name, e)]
  | (n, e₀) :: rest =>
      if n = name then (n, e) :: rest else (n, e₀) :: insertEntry name e rest

mutual

/-- `copyDirectory(src, dest)` from the source: given the source entry and
the current content of the destination path (`none` when the path does not
exist), return the resulting entry at the destination, or an error when the
underlying `fs` call would throw:

* a file is copied with `copyFileSync`, overwriting a destination file but
  failing on a destination directory (`EISDIR`);
* a directory first ensures the destination directory exists (`mkdirSync`
  is skipped when the path exists — including when it is a file, in which
  case copying any child underneath it fails, `ENOTDIR`), then copies each
  child in listing order into the accumulated destination. -/
def copyEntry : FsEntry → Option FsEntry → Except Unit FsEntry
  | .file b, none => .ok (.file b)
  | .file b, some (.file _) => .ok (.file b)
  | .file _, some (.dir _) => .error ()
  | .dir es, none => (copyList es []).map .dir
  | .dir es, some (.dir ds) => (copyList es ds).map .dir
  | .dir es, some (.file b) =>
      match es with
      | [] => .ok (.file b)
      | _ :: _ => .error ()

/-- The `for (const item of items)` loop of `copyDirectory`: copy the
source children one by one into the destination directory, whose content
accumulates as copies land. -/
def copyList : List (String × FsEntry) → List (String × FsEntry) →
    Except Unit (List (String × FsEntry))
  | [], acc => .ok acc
  | (n, e) :: rest, acc =>
      match copyEntry e (lookupEntry n acc) with
      | .error err => .error err
      | .ok e' => copyList rest (insertEntry n e' acc)

end

mutual

/-- Well-formedness of a tree as produced by a real filesystem: each
directory lists every name at most once. -/
def wfEntry : FsEntry → Bool
  | .file _ => true
  | .dir es => wfList es

/-- Well-formedness of a directory listing: names are pairwise distinct
and all entries are well-formed. -/
def wfList : List (String × FsEntry) → Bool
  | [] => true
  | (n, e) :: rest => !hasName n rest && wfEntry e && wfList rest

end

/-- The `Remove all existing files except .git` loop of
`deployToGitHubPages`: every root entry whose name is not `.git` is
deleted (`rmSync` for directories, `unlinkSync` for files). -/
def removeAllExceptGit (entries : List (String × FsEntry)) :
    List (String × FsEntry) :=
  entries.filter (fun p => p.1 = ".git")

/-- The content-synchronization step of `deployToGitHubPages`: remove
every root entry except `.git`, then `copyDirectory(outputPath, repoDir)`
copies the artifact tree into the repository root. -/
def syncContent (artifact : List (String × FsEntry))
    (repo : List (String × FsEntry)) : Except Unit FsEntry :=
  copyEntry (.dir artifact) (some (.dir (removeAllExceptGit repo)))

/-- The tracked tree of the repository root: everything except the
version-control metadata directory `.git`. -/
def trackedTree (entries : List (String × FsEntry)) :
    List (String × FsEntry) :=
  entries.filter (fun p => ¬(p.1 = ".git"))

/-! ## Pipeline model

The git side of `deployToGitHubPages` and the top-level `run` are embedded
as functions of an environment that fixes the outcome of every external
call (each `exec.exec`/`fs` call either succeeds or throws, and
`git status --porcelain` returns a chosen string).  A run produces an
`Except` result together with the trace of external actions attempted, in
order, and the list of log lines emitted through `core.info`,
`core.warning` and `core.error`. -/

/-- JavaScript's `String.prototype.trim()`: strip leading and trailing
whitespace (modelled on the character list so that it evaluates). -/
def jsTrim (s : String) : String :=
  { data := ((s.data.dropWhile Char.isWhitespace).reverse.dropWhile
      Char.isWhitespace).reverse }

/-- External actions attempted by the pipeline, in the order they are
issued. -/
inductive Ev where
  | validateToken
  | speedDocsBuild
  | gitConfig
  | mkWorkspace
  | clone (url : String)
  | setRemoteUrl (url : String)
  | fetch
  | checkoutLocal
  | pull
  | checkoutTrack
  | checkoutOrphan
  | removeExisting
  | copyArtifact
  | addAll
  | statusQuery
  | commit (message : String)
  | push
  | forcePush
  | removeWorkspace
deriving DecidableEq, Repr

/-- The errors the pipeline can raise; `run` converts any of them into a
failed outcome carrying the message. -/
inductive Err where
  | inputMissing (name : String)
  | tokenInvalid
  | contentPathMissing
  | configJsonMissing
  | speedDocsFailed
  | outputDirMissing
  | gitConfigError
  | mkWorkspaceError
  | cloneError
  | setUrlError
  | fetchError
  | orphanError
  | removeError
  | copyError
  | addError
  | statusError
  | commitError
  | pushError
deriving DecidableEq, Repr

/-- The two successful terminal outcomes of `deployToGitHubPages`. -/
inductive DeployOutcome where
  | published
  | noChanges
deriving DecidableEq, Repr

/-- Success or failure of each external call made by
`deployToGitHubPages`, plus the raw output of `git status --porcelain`
and the message of a cleanup failure. -/
structure Env where
  configOk : Bool := true
  mkdtempOk : Bool := true
  cloneOk : Bool := true
  setUrlOk : Bool := true
  fetchOk : Bool := true
  checkoutLocalOk : Bool := true
  pullOk : Bool := true
  checkoutTrackOk : Bool := true
  checkoutOrphanOk : Bool := true
  removeOk : Bool := true
  copyOk : Bool := true
  addOk : Bool := true
  statusOk : Bool := true
  statusOutput : String := ""
  commitOk : Bool := true
  pushOk : Bool := true
  forcePushOk : Bool := true
  cleanupOk : Bool := true
  cleanupErrMsg : String := ""
deriving Repr

/-- A pipeline fragment: its result, the external actions it attempted
and the log lines it emitted. -/
def Step (α : Type) : Type := Except Err α × List Ev × List String

/-- Sequencing of pipeline fragments: an exception short-circuits, a
success appends the continuation's actions and logs. -/
def stepThen {α β : Type} (s : Step α) (f : α → Step β) : Step β :=
  match s with
  | (Except.error e, tr, lg) => (Except.error e, tr, lg)
  | (Except.ok a, tr, lg) =>
      let r := f a
      (r.1, tr ++ r.2.1, lg ++ r.2.2)

/-- The credential-free repository URL used for the clone. -/
def plainUrl (owner repo : String) : String :=
  "https://github.com/" ++ owner ++ "/" ++ repo ++ ".git"

/-- The authenticated URL installed by `git remote set-url origin`
afterwards, embedding the token in the x-access-token form. -/
def authenticatedUrl (owner repo token : String) : String :=
  "https://x-access-token:" ++ token ++ "@github.com/" ++ owner ++ "/" ++
    repo ++ ".git"

/-- Clone into the workspace, install the authenticated remote URL, fetch
all branches (`deployToGitHubPages`, clone/set-url/fetch steps). -/
def cloneStage (env : Env) (owner repo token : String) : Step Unit :=
  if env.cloneOk then
    if env.setUrlOk then
      if env.fetchOk then
        (Except.ok (),
         [Ev.clone (plainUrl owner repo),
          Ev.setRemoteUrl (authenticatedUrl owner repo token), Ev.fetch],
         ["📥 Cloning repository...", "📥 Fetching all branches..."])
      else
        (Except.error Err.fetchError,
         [Ev.clone (plainUrl owner repo),
          Ev.setRemoteUrl (authenticatedUrl owner repo token), Ev.fetch],
         ["📥 Cloning repository...", "📥 Fetching all branches..."])
    else
      (Except.error Err.setUrlError,
       [Ev.clone (plainUrl owner repo),
        Ev.setRemoteUrl (authenticatedUrl owner repo token)],
       ["📥 Cloning repository..."])
  else
    (Except.error Err.cloneError, [Ev.clone (plainUrl owner repo)],
     ["📥 Cloning repository..."])

/-- Which branch state the reconciliation step ended in. -/
inductive BranchOutcome where
  | usedLocal
  | trackedRemote
  | orphaned
deriving DecidableEq, Repr

/-- The nested try/catch chain that switches to the `gh-pages` branch:
checkout of an existing local branch (with a tolerated pull), else a
local branch tracking `origin/gh-pages`, else a fresh orphan branch. -/
def reconcileStage (env : Env) : Step BranchOutcome :=
  if env.checkoutLocalOk then
    if env.pullOk then
      (Except.ok BranchOutcome.usedLocal, [Ev.checkoutLocal, Ev.pull],
       ["📋 Switched to existing gh-pages branch",
        "📥 Pulled latest changes from remote gh-pages branch"])
    else
      (Except.ok BranchOutcome.usedLocal, [Ev.checkoutLocal, Ev.pull],
       ["📋 Switched to existing gh-pages branch",
        "⚠️ Could not pull from remote gh-pages branch, continuing with local branch"])
  else
    if env.checkoutTrackOk then
      (Except.ok BranchOutcome.trackedRemote,
       [Ev.checkoutLocal, Ev.checkoutTrack],
       ["📋 Created local gh-pages branch from remote"])
    else
      if env.checkoutOrphanOk then
        (Except.ok BranchOutcome.orphaned,
         [Ev.checkoutLocal, Ev.checkoutTrack, Ev.checkoutOrphan],
         ["📋 Created new orphan gh-pages branch"])
      else
        (Except.error Err.orphanError,
         [Ev.checkoutLocal, Ev.checkoutTrack, Ev.checkoutOrphan], [])

/-- Remove every root entry except `.git`, then copy the artifact tree in
(the filesystem effect of this step is `syncContent` above). -/
def syncStage (env : Env) : Step Unit :=
  if env.removeOk then
    if env.copyOk then
      (Except.ok (), [Ev.removeExisting, Ev.copyArtifact],
       ["📋 Copying documentation files..."])
    else
      (Except.error Err.copyError, [Ev.removeExisting, Ev.copyArtifact],
       ["📋 Copying documentation files..."])
  else
    (Except.error Err.removeError, [Ev.removeExisting], [])

/-- The commit message embeds the triggering revision identifier. -/
def commitMessage (sha : String) : String :=
  "Deploy documentation from " ++ sha

/-- Stage everything, query the porcelain status; commit and push only
when the status output is non-empty, falling back to a single forced push
when the plain push throws. -/
def commitPushStage (env : Env) (sha : String) : Step DeployOutcome :=
  if env.addOk then
    if env.statusOk then
      if jsTrim env.statusOutput = "" then
        (Except.ok DeployOutcome.noChanges, [Ev.addAll, Ev.statusQuery],
         ["ℹ️ No changes to deploy"])
      else
        if env.commitOk then
          if env.pushOk then
            (Except.ok DeployOutcome.published,
             [Ev.addAll, Ev.statusQuery, Ev.commit (commitMessage sha),
              Ev.push],
             ["📤 Pushing to gh-pages branch...",
              "✅ Successfully deployed to GitHub Pages!"])
          else
            if env.forcePushOk then
              (Except.ok DeployOutcome.published,
               [Ev.addAll, Ev.statusQuery, Ev.commit (commitMessage sha),
                Ev.push, Ev.forcePush],
               ["📤 Pushing to gh-pages branch...",
                "⚠️ Regular push failed, attempting force push...",
                "✅ Force push successful",
                "✅ Successfully deployed to GitHub Pages!"])
            else
              (Except.error Err.pushError,
               [Ev.addAll, Ev.statusQuery, Ev.commit (commitMessage sha),
                Ev.push, Ev.forcePush],
               ["📤 Pushing to gh-pages branch...",
                "⚠️ Regular push failed, attempting force push..."])
        else
          (Except.error Err.commitError,
           [Ev.addAll, Ev.statusQuery, Ev.commit (commitMessage sha)], [])
    else
      (Except.error Err.statusError, [Ev.addAll, Ev.statusQuery], [])
  else
    (Except.error Err.addError, [Ev.addAll], [])

/-- The body of the inner `try` of `deployToGitHubPages`, from the clone
to the push. -/
def deployInner (env : Env) (owner repo token sha : String) :
    Step DeployOutcome :=
  stepThen (cloneStage env owner repo token) (fun _ =>
    stepThen (reconcileStage env) (fun _ =>
      stepThen (syncStage env) (fun _ =>
        commitPushStage env sha)))

/-- The message attached to each error, as `error.message` surfaces it. -/
def errMessage : Err → String
  | Err.inputMissing n => "Input required and not supplied: " ++ n
  | Err.tokenInvalid =>
      "GitHub token validation failed. Please ensure the token has repo permissions"
  | Err.contentPathMissing => "Content path does not exist"
  | Err.configJsonMissing => "config.json not found in content path"
  | Err.speedDocsFailed => "speed-docs command failed"
  | Err.outputDirMissing => "Speed-docs failed to create output directory"
  | Err.gitConfigError => "git config failed"
  | Err.mkWorkspaceError => "could not create temporary deploy directory"
  | Err.cloneError => "git clone failed"
  | Err.setUrlError => "git remote set-url failed"
  | Err.fetchError => "git fetch origin failed"
  | Err.orphanError => "git checkout failed"
  | Err.removeError => "could not remove existing files"
  | Err.copyError => "could not copy documentation files"
  | Err.addError => "git add failed"
  | Err.statusError => "git status failed"
  | Err.commitError => "git commit failed"
  | Err.pushError => "git push failed"

/-- The warning emitted when removing the ephemeral workspace throws. -/
def cleanupWarning (msg : String) : String :=
  "Cleanup warning: " ++ msg

/-- The `core.error` line of the outer catch of `deployToGitHubPages`. -/
def deployFailLog (e : Err) : String :=
  "❌ Failed to deploy to GitHub Pages: " ++ errMessage e

/-- Result of `deployToGitHubPages`: the `Except` result, the attempted
external actions and the emitted log lines. -/
structure DeployRes where
  result : Except Err DeployOutcome
  trace : List Ev
  logs : List String
deriving Repr

/-- `deployToGitHubPages(outputPath, githubToken)`: configure identity,
build the two URLs, create the ephemeral workspace, run the inner
pipeline; the `finally` always attempts workspace removal, downgrading
removal failure to a warning; the outer catch logs and rethrows. -/
def deploy (env : Env) (owner repo token sha : String) : DeployRes :=
  if env.configOk then
    if env.mkdtempOk then
      let inner := deployInner env owner repo token sha
      { result := inner.1
        trace := [Ev.gitConfig, Ev.mkWorkspace] ++ inner.2.1 ++
          [Ev.removeWorkspace]
        logs :=
          ["🚀 Deploying to GitHub Pages...",
           "📦 Repository: " ++ owner ++ "/" ++ repo] ++ inner.2.2 ++
          (if env.cleanupOk then [] else [cleanupWarning env.cleanupErrMsg]) ++
          (match inner.1 with
           | Except.error e => [deployFailLog e]
           | Except.ok _ => []) }
    else
      { result := Except.error Err.mkWorkspaceError
        trace := [Ev.gitConfig]
        logs := ["🚀 Deploying to GitHub Pages...",
                 "📦 Repository: " ++ owner ++ "/" ++ repo,
                 deployFailLog Err.mkWorkspaceError] }
  else
    { result := Except.error Err.gitConfigError
      trace := [Ev.gitConfig]
      logs := ["🚀 Deploying to GitHub Pages...",
               deployFailLog Err.gitConfigError] }

/-- The inputs `run` reads through `core.getInput`/`core.getBooleanInput`
(`content-path`, `github-token`, `output-dir`, `template-url`, `force`,
`download-dir`, `base-path`; there is no `include-hidden` input in the
code). -/
structure ActionInputs where
  contentPath : String
  githubToken : String
  outputDir : String
  templateUrl : String
  force : Bool
  downloadDir : String
  basePath : String
deriving Repr

/-- Environment of one whole `run`: the raw action inputs (empty string =
not supplied), the outcome of the token-validation API call, the
filesystem checks, the `speed-docs` build, and the git environment of the
deployment step. -/
structure RunEnv where
  contentPathInput : String := "docs"
  githubTokenInput : String := "tok"
  outputDirInput : String := ""
  templateUrlInput : String := ""
  forceInput : Bool := false
  downloadDirInput : String := ""
  basePathInput : String := ""
  tokenValid : Bool := true
  contentPathExists : Bool := true
  configJsonExists : Bool := true
  speedDocsExitCode : Nat := 0
  speedDocsStdout : String := ""
  outputDirExists : Bool := true
  git : Env := {}
  owner : String := "owner"
  repo : String := "repo"
  sha : String := "headsha"
deriving Repr

/-- Input collection at the top of `run`: the two required inputs throw
when absent, `output-dir` defaults to `docs-output` when empty. -/
def getInputs (re : RunEnv) : Except Err ActionInputs :=
  if re.contentPathInput = "" then
    Except.error (Err.inputMissing ("content-path"))
  else if re.githubTokenInput = "" then
    Except.error (Err.inputMissing ("github-token"))
  else
    Except.ok
      { contentPath := re.contentPathInput
        githubToken := re.githubTokenInput
        outputDir :=
          if re.outputDirInput = "" then "docs-output" else re.outputDirInput
        templateUrl := re.templateUrlInput
        force := re.forceInput
        downloadDir := re.downloadDirInput
        basePath := re.basePathInput }

/-- The argument list passed to `npx`, assembled from the inputs (paths
are kept verbatim; `path.resolve` is the identity in this model). -/
def speedDocsCommand (inputs : ActionInputs) : List String :=
  ["speed-docs", inputs.contentPath] ++
  (if inputs.templateUrl = "" then [] else ["--template", inputs.templateUrl]) ++
  (if inputs.force then ["--force"] else []) ++
  (if inputs.downloadDir = "" then [] else ["--download-dir", inputs.downloadDir]) ++
  (if inputs.basePath = "" then [] else ["--base-path", inputs.basePath])

/-- The body of the `try` block of `run`: inputs, token validation,
content checks, the `speed-docs` build, the output check, then
`deployToGitHubPages`. -/
def runPipeline (re : RunEnv) :
    Except Err DeployOutcome × List Ev × List String :=
  match getInputs re with
  | Except.error e => (Except.error e, [], [])
  | Except.ok inputs =>
      let startLogs :=
        ["🚀 Starting Speed Docs GitHub Action",
         "📁 Content path: " ++ inputs.contentPath,
         "📁 Output directory: " ++ inputs.outputDir,
         "🔐 Validating GitHub token permissions..."]
      if re.tokenValid then
        let logs1 := startLogs ++ ["✅ GitHub token validation successful"]
        if re.contentPathExists then
          if re.configJsonExists then
            let logs2 := logs1 ++
              ["🔨 Running speed-docs command: " ++
                String.intercalate (" ") (speedDocsCommand inputs)]
            if re.speedDocsExitCode = 0 then
              let logs3 := logs2 ++ ["✅ Speed docs build completed successfully"] ++
                (if jsTrim re.speedDocsStdout = "" then []
                 else ["Speed-docs output: " ++ jsTrim re.speedDocsStdout])
              if re.outputDirExists then
                let logs4 := logs3 ++
                  ["📁 Output directory verified: " ++ inputs.outputDir]
                let d := deploy re.git re.owner re.repo inputs.githubToken re.sha
                (d.result, [Ev.validateToken, Ev.speedDocsBuild] ++ d.trace,
                 logs4 ++ d.logs ++
                   (match d.result with
                    | Except.ok _ => ["🎉 GitHub Action completed successfully!"]
                    | Except.error _ => []))
              else
                (Except.error Err.outputDirMissing,
                 [Ev.validateToken, Ev.speedDocsBuild], logs3)
            else
              (Except.error Err.speedDocsFailed,
               [Ev.validateToken, Ev.speedDocsBuild], logs2)
          else
            (Except.error Err.configJsonMissing, [Ev.validateToken], logs1)
        else
          (Except.error Err.contentPathMissing, [Ev.validateToken], logs1)
      else
        (Except.error Err.tokenInvalid, [Ev.validateToken], startLogs)

/-- The two terminal outcomes of the action: normal completion, or the
`core.setFailed` path of the catch-all. -/
inductive RunOutcome where
  | success
  | failed (message : String)
deriving DecidableEq, Repr

/-- `run()`: the whole pipeline inside one try/catch; any error becomes a
failed outcome carrying the error message, nothing escapes. -/
def runAction (re : RunEnv) : RunOutcome × List Ev × List String :=
  let p := runPipeline re
  match p.1 with
  | Except.ok _ => (RunOutcome.success, p.2.1, p.2.2)
  | Except.error e => (RunOutcome.failed (errMessage e), p.2.1, p.2.2)

/-- Number of trace events satisfying `p`. -/
def countEv (p : Ev → Bool) (tr : List Ev) : Nat := (tr.filter p).length

/-- Recognizes the commit action. -/
def isCommitEv : Ev → Bool
  | Ev.commit _ => true
  | _ => false

/-- Recognizes the forced-push action. -/
def isForcePushEv : Ev → Bool
  | Ev.forcePush => true
  | _ => false

/-- A deployment environment in which every step up to and including the
`git status --porcelain` query succeeds (branch reconciliation succeeding
through any of its three paths). -/
def reachesStatusQuery (env : Env) : Prop :=
  env.configOk = true ∧ env.mkdtempOk = true ∧ env.cloneOk = true ∧
  env.setUrlOk = true ∧ env.fetchOk = true ∧
  (env.checkoutLocalOk = true ∨ env.checkoutTrackOk = true ∨
    env.checkoutOrphanOk = true) ∧
  env.removeOk = true ∧ env.copyOk = true ∧ env.addOk = true ∧
  env.statusOk = true

/-! ## Basic filesystem lemmas -/

theorem hasName_eq_false_iff (n : String) (l : List (String × FsEntry)) :
    hasName n l = false ↔ ∀ p ∈ l, p.1 ≠ n := by
  induction l with
  | nil => simp [hasName]
  | cons q rest ih =>
      obtain ⟨m, e⟩ := q
      by_cases h : m = n
      · subst h
        simp [hasName]
      · simp [hasName, h, ih]

theorem lookupEntry_eq_none (n : String) (l : List (String × FsEntry))
    (h : hasName n l = false) : lookupEntry n l = none := by
  induction l with
  | nil => rfl
  | cons q rest ih =>
      obtain ⟨m, e⟩ := q
      by_cases hm : m = n
      · subst hm; simp [hasName] at h
      · simp [hasName, hm] at h
        simp [lookupEntry, hm, ih h]

theorem insertEntry_of_not_hasName (n : String) (e : FsEntry)
    (l : List (String × FsEntry)) (h : hasName n l = false) :
    insertEntry n e l = l ++ [(n, e)] := by
  induction l with
  | nil => rfl
  | cons q rest ih =>
      obtain ⟨m, e₀⟩ := q
      by_cases hm : m = n
      · subst hm; simp [hasName] at h
      · simp [hasName, hm] at h
        simp [insertEntry, hm, ih h]

theorem hasName_append (n : String) (l₁ l₂ : List (String × FsEntry)) :
    hasName n (l₁ ++ l₂) = (hasName n l₁ || hasName n l₂) := by
  induction l₁ with
  | nil => simp [hasName]
  | cons q rest ih =>
      obtain ⟨m, e⟩ := q
      by_cases hm : m = n <;> simp [hasName, hm, ih]

theorem wfList_cons_iff (n : String) (e : FsEntry)
    (rest : List (String × FsEntry)) :
    wfList ((n, e) :: rest) = true ↔
      hasName n rest = false ∧ wfEntry e = true ∧ wfList rest = true := by
  simp [wfList, Bool.and_eq_true, Bool.not_eq_true', and_assoc]

theorem wfList_mem (l : List (String × FsEntry))
    (h : wfList l = true) {p : String × FsEntry} (hp : p ∈ l) :
    wfEntry p.2 = true := by
  induction l with
  | nil => cases hp
  | cons q rest ih =>
      obtain ⟨m, e⟩ := q
      rw [wfList_cons_iff] at h
      rcases List.mem_cons.mp hp with h1 | h1
      · subst h1; exact h.2.1
      · exact ih h.2.2 h1

/-- Copying the children of a source directory into a destination
directory none of whose current entries clashes with a source name
appends an exact copy of the children after the existing entries. -/
theorem copyList_fresh : ∀ (es acc : List (String × FsEntry)),
    (∀ p ∈ es, copyEntry p.2 none = Except.ok p.2) →
    wfList es = true →
    (∀ p ∈ es, hasName p.1 acc = false) →
    copyList es acc = Except.ok (acc ++ es) := by
  intro es
  induction es with
  | nil => intro acc _ _ _; simp [copyList]
  | cons q rest ih =>
      intro acc hcopy hnodup hdisj
      obtain ⟨n, e⟩ := q
      rw [wfList_cons_iff] at hnodup
      have hacc : hasName n acc = false := hdisj (n, e) (List.mem_cons_self _ _)
      have hlook : lookupEntry n acc = none := lookupEntry_eq_none n acc hacc
      have hce : copyEntry e none = Except.ok e :=
        hcopy (n, e) (List.mem_cons_self _ _)
      have hins : insertEntry n e acc = acc ++ [(n, e)] :=
        insertEntry_of_not_hasName n e acc hacc
      have hrest : copyList rest (acc ++ [(n, e)]) =
          Except.ok ((acc ++ [(n, e)]) ++ rest) := by
        refine ih (acc ++ [(n, e)])
          (fun p hp => hcopy p (List.mem_cons_of_mem _ hp)) hnodup.2.2
          (fun p hp => ?_)
        rw [hasName_append]
        have h1 : hasName p.1 acc = false :=
          hdisj p (List.mem_cons_of_mem _ hp)
        have h2 : hasName p.1 [(n, e)] = false := by
          have hpn : p.1 ≠ n := by
            have := (hasName_eq_false_iff n rest).mp hnodup.1 p hp
            exact this
          have hnp : ¬(n = p.1) := fun h => hpn h.symm
          simp [hasName, hnp]
        simp [h1, h2]
      calc copyList ((n, e) :: rest) acc
          = copyList rest (insertEntry n e acc) := by
            simp [copyList, hlook, hce]
        _ = Except.ok (acc ++ (n, e) :: rest) := by
            rw [hins, hrest, List.append_assoc]
            simp

/-- Copying a well-formed source entry to a non-existing destination path
reproduces the source exactly, structure and bytes. -/
theorem copyEntry_fresh_aux :
    ∀ (k : Nat) (e : FsEntry), sizeOf e ≤ k → wfEntry e = true →
      copyEntry e none = Except.ok e := by
  intro k
  induction k with
  | zero =>
      intro e hsz _
      cases e with
      | file b => simp only [FsEntry.file.sizeOf_spec] at hsz; omega
      | dir es => simp only [FsEntry.dir.sizeOf_spec] at hsz; omega
  | succ k ih =>
      intro e hsz hwf
      cases e with
      | file b => rfl
      | dir es =>
          have hlist : copyList es [] = Except.ok ([] ++ es) := by
            refine copyList_fresh es [] (fun p hp => ?_) hwf (fun p _ => rfl)
            have hmem : sizeOf p < sizeOf es := List.sizeOf_lt_of_mem hp
            have hcomp : sizeOf p.2 < sizeOf p := by
              obtain ⟨n, e'⟩ := p
              simp only [Prod.mk.sizeOf_spec]
              omega
            have hes : sizeOf (FsEntry.dir es) = 1 + sizeOf es := by
              simp only [FsEntry.dir.sizeOf_spec]
            refine ih p.2 (by omega) ?_
            exact wfList_mem es hwf hp
          have hce : copyEntry (FsEntry.dir es) none =
              (copyList es []).map FsEntry.dir := rfl
          rw [hce, hlist]
          rfl

theorem copyEntry_fresh (e : FsEntry) (h : wfEntry e = true) :
    copyEntry e none = Except.ok e :=
  copyEntry_fresh_aux (sizeOf e) e (Nat.le_refl _) h

theorem hasName_removeAllExceptGit (n : String) (r : List (String × FsEntry))
    (hn : n ≠ ".git") : hasName n (removeAllExceptGit r) = false := by
  rw [hasName_eq_false_iff]
  intro p hp hpn
  have := List.of_mem_filter hp
  simp at this
  exact hn (hpn ▸ this)

/-- The exact shape of the repository root after the
remove-then-copy synchronization step: the surviving `.git` entries
followed by a verbatim copy of the artifact tree. -/
theorem syncContent_eq (a r : List (String × FsEntry))
    (hw : wfList a = true) (hg : hasName (".git") a = false) :
    syncContent a r = Except.ok (FsEntry.dir (removeAllExceptGit r ++ a)) := by
  have hnames : ∀ p ∈ a, p.1 ≠ ".git" := by
    intro p hp
    exact (hasName_eq_false_iff _ a).mp hg p hp
  have hlist : copyList a (removeAllExceptGit r) =
      Except.ok (removeAllExceptGit r ++ a) := by
    refine copyList_fresh a _ (fun p hp => ?_) hw (fun p hp => ?_)
    · exact copyEntry_fresh p.2 (wfList_mem a hw hp)
    · exact hasName_removeAllExceptGit p.1 r (hnames p hp)
  have hce : syncContent a r =
      (copyList a (removeAllExceptGit r)).map FsEntry.dir := rfl
  rw [hce, hlist]
  rfl

theorem trackedTree_after_sync (a r : List (String × FsEntry))
    (hg : hasName (".git") a = false) :
    trackedTree (removeAllExceptGit r ++ a) = a := by
  have hnames : ∀ p ∈ a, p.1 ≠ ".git" := by
    intro p hp
    exact (hasName_eq_false_iff _ a).mp hg p hp
  unfold trackedTree removeAllExceptGit
  rw [List.filter_append]
  have h1 : (r.filter (fun p => decide (p.1 = ".git"))).filter
      (fun p => decide ¬(p.1 = ".git")) = [] := by
    rw [List.filter_eq_nil_iff]
    intro p hp
    have := List.of_mem_filter hp
    simp at this ⊢
    exact this
  have h2 : a.filter (fun p => decide ¬(p.1 = ".git")) = a := by
    rw [List.filter_eq_self]
    intro p hp
    simp
    exact hnames p hp
  rw [h1, h2]
  simp

theorem removeAllExceptGit_after_sync (a r : List (String × FsEntry))
    (hg : hasName (".git") a = false) :
    removeAllExceptGit (removeAllExceptGit r ++ a) = removeAllExceptGit r := by
  have hnames : ∀ p ∈ a, p.1 ≠ ".git" := by
    intro p hp
    exact (hasName_eq_false_iff _ a).mp hg p hp
  unfold removeAllExceptGit
  rw [List.filter_append]
  have h1 : (r.filter (fun p => decide (p.1 = ".git"))).filter
      (fun p => decide (p.1 = ".git")) = r.filter (fun p => decide (p.1 = ".git")) := by
    rw [List.filter_filter]
    simp
  have h2 : a.filter (fun p => decide (p.1 = ".git")) = [] := by
    rw [List.filter_eq_nil_iff]
    intro p hp
    simp
    exact hnames p hp
  rw [h1, h2]
  simp

/-! ## Composition lemmas for pipeline fragments -/

theorem countEv_append (p : Ev → Bool) (l₁ l₂ : List Ev) :
    countEv p (l₁ ++ l₂) = countEv p l₁ + countEv p l₂ := by
  simp [countEv]

theorem stepThen_ok_eq {α β : Type} (a : α) (tr : List Ev)
    (lg : List String) (f : α → Step β) :
    stepThen (Except.ok a, tr, lg) f =
      ((f a).1, tr ++ (f a).2.1, lg ++ (f a).2.2) := rfl

theorem stepThen_error_eq {α β : Type} (e : Err) (tr : List Ev)
    (lg : List String) (f : α → Step β) :
    stepThen (Except.error e, tr, lg) f = (Except.error e, tr, lg) := rfl

theorem mem_stepThen_elim {α β : Type} (x : Ev) (s : Step α) (f : α → Step β)
    (h : x ∈ (stepThen s f).2.1) : x ∈ s.2.1 ∨ ∃ a, x ∈ (f a).2.1 := by
  obtain ⟨r, tr, lg⟩ := s
  cases r with
  | error e =>
      simp [stepThen] at h
      exact Or.inl h
  | ok a =>
      simp [stepThen] at h
      rcases h with h | h
      · exact Or.inl h
      · exact Or.inr ⟨a, h⟩

theorem countEv_stepThen {α β : Type} (p : Ev → Bool) (s : Step α)
    (f : α → Step β) (m n : Nat) (h1 : countEv p s.2.1 ≤ m)
    (h2 : ∀ a, countEv p (f a).2.1 ≤ n) :
    countEv p (stepThen s f).2.1 ≤ m + n := by
  obtain ⟨r, tr, lg⟩ := s
  simp at h1
  cases r with
  | error e =>
      simp [stepThen]
      exact le_trans h1 (Nat.le_add_right m n)
  | ok a =>
      simp [stepThen, countEv_append]
      have := h2 a
      omega

theorem stepThen_congr_resLog {α β : Type} (s₁ s₂ : Step α) (f : α → Step β)
    (hr : s₁.1 = s₂.1) (hl : s₁.2.2 = s₂.2.2) :
    (stepThen s₁ f).1 = (stepThen s₂ f).1 ∧
    (stepThen s₁ f).2.2 = (stepThen s₂ f).2.2 := by
  obtain ⟨r₁, tr₁, lg₁⟩ := s₁
  obtain ⟨r₂, tr₂, lg₂⟩ := s₂
  simp at hr hl
  subst hr
  subst hl
  cases r₁ with
  | error e => simp [stepThen]
  | ok a => simp [stepThen]

/-! ## Shape of each stage's trace -/

theorem cloneStage_events (env : Env) (o r t : String) (x : Ev)
    (hx : x ∈ (cloneStage env o r t).2.1) :
    x = Ev.clone (plainUrl o r) ∨
    x = Ev.setRemoteUrl (authenticatedUrl o r t) ∨ x = Ev.fetch := by
  cases h1 : env.cloneOk <;> cases h2 : env.setUrlOk <;>
    cases h3 : env.fetchOk <;> simp [cloneStage, h1, h2, h3] at hx <;> tauto

theorem reconcileStage_events (env : Env) (x : Ev)
    (hx : x ∈ (reconcileStage env).2.1) :
    x = Ev.checkoutLocal ∨ x = Ev.pull ∨ x = Ev.checkoutTrack ∨
    x = Ev.checkoutOrphan := by
  cases h1 : env.checkoutLocalOk <;> cases h2 : env.pullOk <;>
    cases h3 : env.checkoutTrackOk <;> cases h4 : env.checkoutOrphanOk <;>
    simp [reconcileStage, h1, h2, h3, h4] at hx <;> tauto

theorem syncStage_events (env : Env) (x : Ev)
    (hx : x ∈ (syncStage env).2.1) :
    x = Ev.removeExisting ∨ x = Ev.copyArtifact := by
  cases h1 : env.removeOk <;> cases h2 : env.copyOk <;>
    simp [syncStage, h1, h2] at hx <;> tauto

theorem commitPushStage_events (env : Env) (s : String) (x : Ev)
    (hx : x ∈ (commitPushStage env s).2.1) :
    x = Ev.addAll ∨ x = Ev.statusQuery ∨ x = Ev.commit (commitMessage s) ∨
    x = Ev.push ∨ x = Ev.forcePush := by
  by_cases ht : jsTrim env.statusOutput = "" <;>
    cases h1 : env.addOk <;> cases h2 : env.statusOk <;>
    cases h3 : env.commitOk <;> cases h4 : env.pushOk <;>
    cases h5 : env.forcePushOk <;>
    simp [commitPushStage, ht, h1, h2, h3, h4, h5] at hx <;> tauto

/-- The sync-then-commit tail of the inner pipeline never performs a
checkout or clone action. -/
theorem tail_events (env : Env) (s : String) (x : Ev)
    (hx : x ∈ (stepThen (syncStage env) (fun _ =>
      commitPushStage env s)).2.1) :
    x = Ev.removeExisting ∨ x = Ev.copyArtifact ∨ x = Ev.addAll ∨
    x = Ev.statusQuery ∨ x = Ev.commit (commitMessage s) ∨
    x = Ev.push ∨ x = Ev.forcePush := by
  rcases mem_stepThen_elim x _ _ hx with h | ⟨a, h⟩
  · rcases syncStage_events env x h with h | h <;> tauto
  · rcases commitPushStage_events env s x h with h | h | h | h | h <;> tauto

/-! ## Commit counting -/

theorem countCommit_cloneStage (env : Env) (o r t : String) :
    countEv isCommitEv (cloneStage env o r t).2.1 = 0 := by
  cases h1 : env.cloneOk <;> cases h2 : env.setUrlOk <;>
    cases h3 : env.fetchOk <;>
    simp [cloneStage, h1, h2, h3, countEv, isCommitEv]

theorem countCommit_reconcileStage (env : Env) :
    countEv isCommitEv (reconcileStage env).2.1 = 0 := by
  cases h1 : env.checkoutLocalOk <;> cases h2 : env.pullOk <;>
    cases h3 : env.checkoutTrackOk <;> cases h4 : env.checkoutOrphanOk <;>
    simp [reconcileStage, h1, h2, h3, h4, countEv, isCommitEv]

theorem countCommit_syncStage (env : Env) :
    countEv isCommitEv (syncStage env).2.1 = 0 := by
  cases h1 : env.removeOk <;> cases h2 : env.copyOk <;>
    simp [syncStage, h1, h2, countEv, isCommitEv]

theorem countCommit_commitPushStage (env : Env) (s : String) :
    countEv isCommitEv (commitPushStage env s).2.1 ≤ 1 := by
  by_cases ht : jsTrim env.statusOutput = "" <;>
    cases h1 : env.addOk <;> cases h2 : env.statusOk <;>
    cases h3 : env.commitOk <;> cases h4 : env.pushOk <;>
    cases h5 : env.forcePushOk <;>
    simp [commitPushStage, ht, h1, h2, h3, h4, h5, countEv, isCommitEv]

/-- Over the whole deployment, at most one commit action is ever
attempted, whatever succeeds or fails. -/
theorem countCommit_deploy (env : Env) (o r t s : String) :
    countEv isCommitEv (deploy env o r t s).trace ≤ 1 := by
  cases hc : env.configOk <;> cases hm : env.mkdtempOk <;>
    simp [deploy, hc, hm, countEv_append]
  · simp [countEv, isCommitEv]
  · simp [countEv, isCommitEv]
  · simp [countEv, isCommitEv]
  · have h := countEv_stepThen isCommitEv (cloneStage env o r t)
      (fun _ => stepThen (reconcileStage env) (fun _ =>
        stepThen (syncStage env) (fun _ => commitPushStage env s))) 0 1
      (le_of_eq (countCommit_cloneStage env o r t))
      (fun _ => countEv_stepThen isCommitEv (reconcileStage env) _ 0 1
        (le_of_eq (countCommit_reconcileStage env))
        (fun _ => countEv_stepThen isCommitEv (syncStage env) _ 0 1
          (le_of_eq (countCommit_syncStage env))
          (fun _ => countCommit_commitPushStage env s)))
    have hz1 : countEv isCommitEv [Ev.gitConfig, Ev.mkWorkspace] = 0 := by
      simp [countEv, isCommitEv]
    have hz2 : countEv isCommitEv [Ev.removeWorkspace] = 0 := by
      simp [countEv, isCommitEv]
    calc countEv isCommitEv ([Ev.gitConfig, Ev.mkWorkspace] ++
          (deployInner env o r t s).2.1 ++ [Ev.removeWorkspace])
        = countEv isCommitEv (deployInner env o r t s).2.1 := by
          rw [countEv_append, countEv_append, hz1, hz2]
          omega
      _ ≤ 1 := h

/-! ## Credential noninterference -/

theorem cloneStage_token_resLog (env : Env) (o r t₁ t₂ : String) :
    (cloneStage env o r t₁).1 = (cloneStage env o r t₂).1 ∧
    (cloneStage env o r t₁).2.2 = (cloneStage env o r t₂).2.2 := by
  cases h1 : env.cloneOk <;> cases h2 : env.setUrlOk <;>
    cases h3 : env.fetchOk <;> simp [cloneStage, h1, h2, h3]

theorem deployInner_token_resLog (env : Env) (o r t₁ t₂ s : String) :
    (deployInner env o r t₁ s).1 = (deployInner env o r t₂ s).1 ∧
    (deployInner env o r t₁ s).2.2 = (deployInner env o r t₂ s).2.2 := by
  have h := cloneStage_token_resLog env o r t₁ t₂
  exact stepThen_congr_resLog _ _ _ h.1 h.2

/-- The emitted log lines never depend on the credential: two runs that
differ only in the token log exactly the same lines. -/
theorem deploy_logs_token (env : Env) (o r t₁ t₂ s : String) :
    (deploy env o r t₁ s).logs = (deploy env o r t₂ s).logs := by
  cases hc : env.configOk <;> cases hm : env.mkdtempOk <;>
    simp [deploy, hc, hm]
  have h := deployInner_token_resLog env o r t₁ t₂ s
  rw [h.1, h.2]

/-! ## Claims -/

/-- C3: after the content synchronization step runs, the workspace's
tracked tree equals the artifact tree exactly in structure and byte
content: every entry under the repository root except the `.git`
metadata directory is removed, and then the full artifact tree is copied
in verbatim, so the resulting root is exactly the surviving `.git` entry
followed by a byte-for-byte copy of the artifact tree, and its tracked
part is the artifact tree itself.  (The artifact tree is a real directory
listing: distinct names, and no `.git` entry of its own.) -/
theorem C3_sync_fidelity (a r : List (String × FsEntry))
    (hw : wfList a = true) (hg : hasName (".git") a = false) :
    syncContent a r = Except.ok (FsEntry.dir (removeAllExceptGit r ++ a)) ∧
    trackedTree (removeAllExceptGit r ++ a) = a :=
  ⟨syncContent_eq a r hw hg, trackedTree_after_sync a r hg⟩

theorem C3_sync_fidelity_witness :
    wfList [(("index.html"), FsEntry.file [60, 104]),
      (("assets"), FsEntry.dir [(("style.css"), FsEntry.file [42])])] = true ∧
    hasName (".git") [(("index.html"), FsEntry.file [60, 104]),
      (("assets"), FsEntry.dir [(("style.css"), FsEntry.file [42])])] = false ∧
    (syncContent [(("index.html"), FsEntry.file [60, 104]),
        (("assets"), FsEntry.dir [(("style.css"), FsEntry.file [42])])]
        [((".git"), FsEntry.dir []), (("old.txt"), FsEntry.file [7])] =
      Except.ok (FsEntry.dir (removeAllExceptGit
        [((".git"), FsEntry.dir []), (("old.txt"), FsEntry.file [7])] ++
        [(("index.html"), FsEntry.file [60, 104]),
         (("assets"), FsEntry.dir [(("style.css"), FsEntry.file [42])])])) ∧
    trackedTree (removeAllExceptGit
        [((".git"), FsEntry.dir []), (("old.txt"), FsEntry.file [7])] ++
        [(("index.html"), FsEntry.file [60, 104]),
         (("assets"), FsEntry.dir [(("style.css"), FsEntry.file [42])])]) =
      [(("index.html"), FsEntry.file [60, 104]),
       (("assets"), FsEntry.dir [(("style.css"), FsEntry.file [42])])]) :=
  ⟨rfl, rfl, C3_sync_fidelity _ _ rfl rfl⟩

/-- C4: content synchronization is idempotent: running the
remove-then-copy step a second time from the same unchanged artifact tree
over the root produced by the first run yields exactly the same root
again, so the second run produces zero further differences. -/
theorem C4_sync_idempotent (a r : List (String × FsEntry))
    (hw : wfList a = true) (hg : hasName (".git") a = false) :
    syncContent a r = Except.ok (FsEntry.dir (removeAllExceptGit r ++ a)) ∧
    syncContent a (removeAllExceptGit r ++ a) =
      Except.ok (FsEntry.dir (removeAllExceptGit r ++ a)) := by
  refine ⟨syncContent_eq a r hw hg, ?_⟩
  have h := syncContent_eq a (removeAllExceptGit r ++ a) hw hg
  rw [removeAllExceptGit_after_sync a r hg] at h
  exact h

theorem C4_sync_idempotent_witness :
    wfList [(("page.html"), FsEntry.file [1, 2])] = true ∧
    hasName (".git") [(("page.html"), FsEntry.file [1, 2])] = false ∧
    (syncContent [(("page.html"), FsEntry.file [1, 2])]
        [((".git"), FsEntry.dir []), (("stale"), FsEntry.dir [])] =
      Except.ok (FsEntry.dir (removeAllExceptGit
        [((".git"), FsEntry.dir []), (("stale"), FsEntry.dir [])] ++
        [(("page.html"), FsEntry.file [1, 2])])) ∧
    syncContent [(("page.html"), FsEntry.file [1, 2])]
        (removeAllExceptGit
          [((".git"), FsEntry.dir []), (("stale"), FsEntry.dir [])] ++
          [(("page.html"), FsEntry.file [1, 2])]) =
      Except.ok (FsEntry.dir (removeAllExceptGit
        [((".git"), FsEntry.dir []), (("stale"), FsEntry.dir [])] ++
        [(("page.html"), FsEntry.file [1, 2])]))) :=
  ⟨rfl, rfl, C4_sync_idempotent _ _ rfl rfl⟩

/-- C8: the claim says dot-prefixed artifact entries are excluded from
the copy unless an `include-hidden` option is set.  The code has no such
filter and reads no such input: `copyDirectory` copies every entry
unconditionally, so a dot-prefixed artifact entry does land in the
synchronized tracked tree.  This theorem evaluates the synchronization on
an artifact tree containing the hidden entry `.hidden`: the entry is
copied and appears in the tracked tree. -/
theorem C8_hidden_entry_copied :
    syncContent [((".hidden"), FsEntry.file [104]),
        (("index.html"), FsEntry.file [60])]
        [((".git"), FsEntry.dir [])] =
      Except.ok (FsEntry.dir
        [((".git"), FsEntry.dir []), ((".hidden"), FsEntry.file [104]),
         (("index.html"), FsEntry.file [60])]) ∧
    hasName (".hidden")
      (trackedTree [((".git"), FsEntry.dir []),
        ((".hidden"), FsEntry.file [104]),
        (("index.html"), FsEntry.file [60])]) = true :=
  ⟨rfl, rfl⟩

theorem checkoutTrack_not_in_tail (env : Env) (s : String) :
    Ev.checkoutTrack ∉ (stepThen (syncStage env) (fun _ =>
      commitPushStage env s)).2.1 := by
  intro h
  rcases tail_events env s _ h with h | h | h | h | h | h | h <;> simp at h

theorem checkoutOrphan_not_in_tail (env : Env) (s : String) :
    Ev.checkoutOrphan ∉ (stepThen (syncStage env) (fun _ =>
      commitPushStage env s)).2.1 := by
  intro h
  rcases tail_events env s _ h with h | h | h | h | h | h | h <;> simp at h

/-- C1: branch reconciliation follows the deterministic fallback chain.
In any deployment that reaches the branch step: when checkout of the
local target branch succeeds, that branch is reused and neither a
tracking branch nor an orphan branch is created; when it fails and the
remote tracking checkout succeeds, a tracking branch is created and no
orphan branch; when both probes fail — the branch exists neither locally
nor remotely — the orphan checkout is performed, and the trace shows the
three attempts consecutively in fallback order. -/
theorem C1_branch_fallback (env : Env) (o r t s : String)
    (hcfg : env.configOk = true) (hmk : env.mkdtempOk = true)
    (hcl : env.cloneOk = true) (hsu : env.setUrlOk = true)
    (hf : env.fetchOk = true) :
    (env.checkoutLocalOk = true →
        Ev.checkoutLocal ∈ (deploy env o r t s).trace ∧
        Ev.checkoutTrack ∉ (deploy env o r t s).trace ∧
        Ev.checkoutOrphan ∉ (deploy env o r t s).trace) ∧
    (env.checkoutLocalOk = false → env.checkoutTrackOk = true →
        Ev.checkoutTrack ∈ (deploy env o r t s).trace ∧
        Ev.checkoutOrphan ∉ (deploy env o r t s).trace) ∧
    (env.checkoutLocalOk = false → env.checkoutTrackOk = false →
        ∃ pre post, (deploy env o r t s).trace =
          pre ++ [Ev.checkoutLocal, Ev.checkoutTrack, Ev.checkoutOrphan] ++
            post) := by
  refine ⟨fun hl => ?_, fun hl htk => ?_, fun hl htk => ?_⟩
  · cases hp : env.pullOk <;>
      simp [deploy, hcfg, hmk, deployInner, cloneStage, hcl, hsu, hf,
        reconcileStage, hl, hp, stepThen_ok_eq, stepThen_error_eq,
        checkoutTrack_not_in_tail, checkoutOrphan_not_in_tail]
  · simp [deploy, hcfg, hmk, deployInner, cloneStage, hcl, hsu, hf,
      reconcileStage, hl, htk, stepThen_ok_eq, stepThen_error_eq,
      checkoutOrphan_not_in_tail]
  · cases ho : env.checkoutOrphanOk
    · refine ⟨[Ev.gitConfig, Ev.mkWorkspace, Ev.clone (plainUrl o r),
        Ev.setRemoteUrl (authenticatedUrl o r t), Ev.fetch],
        [Ev.removeWorkspace], ?_⟩
      simp [deploy, hcfg, hmk, deployInner, cloneStage, hcl, hsu, hf,
        reconcileStage, hl, htk, ho, stepThen_ok_eq, stepThen_error_eq]
    · refine ⟨[Ev.gitConfig, Ev.mkWorkspace, Ev.clone (plainUrl o r),
        Ev.setRemoteUrl (authenticatedUrl o r t), Ev.fetch],
        (stepThen (syncStage env) (fun _ => commitPushStage env s)).2.1 ++
          [Ev.removeWorkspace], ?_⟩
      simp [deploy, hcfg, hmk, deployInner, cloneStage, hcl, hsu, hf,
        reconcileStage, hl, htk, ho, stepThen_ok_eq, stepThen_error_eq]

theorem reconcile_cases (env : Env)
    (hrec : env.checkoutLocalOk = true ∨ env.checkoutTrackOk = true ∨
      env.checkoutOrphanOk = true) :
    env.checkoutLocalOk = true ∨
    (env.checkoutLocalOk = false ∧ env.checkoutTrackOk = true) ∨
    (env.checkoutLocalOk = false ∧ env.checkoutTrackOk = false ∧
      env.checkoutOrphanOk = true) := by
  cases hl : env.checkoutLocalOk <;> cases htk : env.checkoutTrackOk <;>
    rcases hrec with hx | hx | hx <;> simp_all

theorem commit_mem_commitPushStage (env : Env) (s : String)
    (had : env.addOk = true) (hst : env.statusOk = true) :
    (Ev.commit (commitMessage s) ∈ (commitPushStage env s).2.1) ↔
      ¬jsTrim env.statusOutput = "" := by
  by_cases ht : jsTrim env.statusOutput = "" <;>
    cases h3 : env.commitOk <;> cases h4 : env.pushOk <;>
    cases h5 : env.forcePushOk <;>
    simp [commitPushStage, had, hst, ht, h3, h4, h5]

theorem deploy_result_cleanup (env : Env) (b : Bool) (o r t s : String) :
    (deploy { env with cleanupOk := b } o r t s).result =
      (deploy env o r t s).result := by
  cases env with
  | mk c1 c2 c3 c4 c5 c6 c7 c8 c9 c10 c11 c12 c13 st c14 c15 c16 c17 cm =>
      cases c1 <;> cases c2 <;> rfl

theorem clone_url_cloneStage (env : Env) (o r t u : String)
    (h : Ev.clone u ∈ (cloneStage env o r t).2.1) : u = plainUrl o r := by
  cases h1 : env.cloneOk <;> cases h2 : env.setUrlOk <;>
    cases h3 : env.fetchOk <;> simp [cloneStage, h1, h2, h3] at h <;> tauto

theorem setUrl_cloneStage (env : Env) (o r t u : String)
    (h : Ev.setRemoteUrl u ∈ (cloneStage env o r t).2.1) :
    u = authenticatedUrl o r t := by
  cases h1 : env.cloneOk <;> cases h2 : env.setUrlOk <;>
    cases h3 : env.fetchOk <;> simp [cloneStage, h1, h2, h3] at h <;> tauto

/-- C2: in every deployment run in which a commit was created, a rejected
plain push is retried exactly once with a forced push; a successful plain
push is never followed by a forced push; and a fatal publish error is
reported only when the single forced retry also fails. -/
theorem C2_forced_push_retry (env : Env) (o r t s : String)
    (h : reachesStatusQuery env) (ht : ¬jsTrim env.statusOutput = "")
    (hcm : env.commitOk = true) :
    (env.pushOk = true →
        Ev.push ∈ (deploy env o r t s).trace ∧
        Ev.forcePush ∉ (deploy env o r t s).trace ∧
        (deploy env o r t s).result = Except.ok DeployOutcome.published) ∧
    (env.pushOk = false →
        countEv isForcePushEv (deploy env o r t s).trace = 1 ∧
        (env.forcePushOk = true →
          (deploy env o r t s).result = Except.ok DeployOutcome.published) ∧
        (env.forcePushOk = false →
          (deploy env o r t s).result = Except.error Err.pushError)) := by
  obtain ⟨hcfg, hmk, hcl, hsu, hf, hrec, hrm, hcp, had, hst⟩ := h
  have hor : env.checkoutLocalOk = true ∨
      (env.checkoutLocalOk = false ∧ env.checkoutTrackOk = true) ∨
      (env.checkoutLocalOk = false ∧ env.checkoutTrackOk = false ∧
        env.checkoutOrphanOk = true) := by
    cases hl : env.checkoutLocalOk <;> cases htk : env.checkoutTrackOk <;>
      rcases hrec with hx | hx | hx <;> simp_all
  constructor
  · intro hpu
    rcases hor with hl | ⟨hl, htk⟩ | ⟨hl, htk, ho⟩
    · cases hp : env.pullOk <;>
        simp [deploy, hcfg, hmk, deployInner, cloneStage, hcl, hsu, hf,
          reconcileStage, hl, hp, syncStage, hrm, hcp, commitPushStage,
          had, hst, ht, hcm, hpu, stepThen_ok_eq, stepThen_error_eq]
    · simp [deploy, hcfg, hmk, deployInner, cloneStage, hcl, hsu, hf,
        reconcileStage, hl, htk, syncStage, hrm, hcp, commitPushStage,
        had, hst, ht, hcm, hpu, stepThen_ok_eq, stepThen_error_eq]
    · simp [deploy, hcfg, hmk, deployInner, cloneStage, hcl, hsu, hf,
        reconcileStage, hl, htk, ho, syncStage, hrm, hcp, commitPushStage,
        had, hst, ht, hcm, hpu, stepThen_ok_eq, stepThen_error_eq]
  · intro hpu
    rcases hor with hl | ⟨hl, htk⟩ | ⟨hl, htk, ho⟩
    · cases hp : env.pullOk <;> cases hfp : env.forcePushOk <;>
        simp [deploy, hcfg, hmk, deployInner, cloneStage, hcl, hsu, hf,
          reconcileStage, hl, hp, syncStage, hrm, hcp, commitPushStage,
          had, hst, ht, hcm, hpu, hfp, stepThen_ok_eq, stepThen_error_eq,
          countEv, isForcePushEv]
    · cases hfp : env.forcePushOk <;>
        simp [deploy, hcfg, hmk, deployInner, cloneStage, hcl, hsu, hf,
          reconcileStage, hl, htk, syncStage, hrm, hcp, commitPushStage,
          had, hst, ht, hcm, hpu, hfp, stepThen_ok_eq, stepThen_error_eq,
          countEv, isForcePushEv]
    · cases hfp : env.forcePushOk <;>
        simp [deploy, hcfg, hmk, deployInner, cloneStage, hcl, hsu, hf,
          reconcileStage, hl, htk, ho, syncStage, hrm, hcp, commitPushStage,
          had, hst, ht, hcm, hpu, hfp, stepThen_ok_eq, stepThen_error_eq,
          countEv, isForcePushEv]

theorem C2_forced_push_retry_witness :
    reachesStatusQuery { statusOutput := "M  index.html" } ∧
    ¬jsTrim ({ statusOutput := "M  index.html" } : Env).statusOutput = "" ∧
    ((({ statusOutput := "M  index.html" } : Env).pushOk = true →
        Ev.push ∈ (deploy { statusOutput := "M  index.html" }
          ("o") ("r") ("t") ("s")).trace ∧
        Ev.forcePush ∉ (deploy { statusOutput := "M  index.html" }
          ("o") ("r") ("t") ("s")).trace ∧
        (deploy { statusOutput := "M  index.html" }
          ("o") ("r") ("t") ("s")).result =
            Except.ok DeployOutcome.published) ∧
    (({ statusOutput := "M  index.html" } : Env).pushOk = false →
        countEv isForcePushEv (deploy { statusOutput := "M  index.html" }
          ("o") ("r") ("t") ("s")).trace = 1 ∧
        (({ statusOutput := "M  index.html" } : Env).forcePushOk = true →
          (deploy { statusOutput := "M  index.html" }
            ("o") ("r") ("t") ("s")).result =
              Except.ok DeployOutcome.published) ∧
        (({ statusOutput := "M  index.html" } : Env).forcePushOk = false →
          (deploy { statusOutput := "M  index.html" }
            ("o") ("r") ("t") ("s")).result =
              Except.error Err.pushError))) :=
  ⟨⟨rfl, rfl, rfl, rfl, rfl, Or.inl rfl, rfl, rfl, rfl, rfl⟩, by decide,
   C2_forced_push_retry { statusOutput := "M  index.html" }
     ("o") ("r") ("t") ("s")
     ⟨rfl, rfl, rfl, rfl, rfl, Or.inl rfl, rfl, rfl, rfl, rfl⟩
     (by decide) rfl⟩

theorem C1_branch_fallback_witness :
    ({} : Env).configOk = true ∧
    ((({} : Env).checkoutLocalOk = true →
        Ev.checkoutLocal ∈ (deploy {} ("o") ("r") ("t") ("s")).trace ∧
        Ev.checkoutTrack ∉ (deploy {} ("o") ("r") ("t") ("s")).trace ∧
        Ev.checkoutOrphan ∉ (deploy {} ("o") ("r") ("t") ("s")).trace) ∧
    (({} : Env).checkoutLocalOk = false → ({} : Env).checkoutTrackOk = true →
        Ev.checkoutTrack ∈ (deploy {} ("o") ("r") ("t") ("s")).trace ∧
        Ev.checkoutOrphan ∉ (deploy {} ("o") ("r") ("t") ("s")).trace) ∧
    (({} : Env).checkoutLocalOk = false → ({} : Env).checkoutTrackOk = false →
        ∃ pre post, (deploy {} ("o") ("r") ("t") ("s")).trace =
          pre ++ [Ev.checkoutLocal, Ev.checkoutTrack, Ev.checkoutOrphan] ++
            post)) :=
  ⟨rfl, C1_branch_fallback {} ("o") ("r") ("t") ("s") rfl rfl rfl rfl rfl⟩

/-- C5: every deployment run produces zero or one commit, never more; a
commit is created exactly when the staged status query reports a
non-empty difference; and when it reports no difference the run performs
no commit and no push and ends with the distinct no-changes outcome. -/
theorem C5_single_commit (env : Env) (o r t s : String) :
    countEv isCommitEv (deploy env o r t s).trace ≤ 1 ∧
    (reachesStatusQuery env →
      ((Ev.commit (commitMessage s) ∈ (deploy env o r t s).trace) ↔
        ¬jsTrim env.statusOutput = "")) ∧
    (reachesStatusQuery env → jsTrim env.statusOutput = "" →
      (deploy env o r t s).result = Except.ok DeployOutcome.noChanges ∧
      Ev.push ∉ (deploy env o r t s).trace ∧
      Ev.forcePush ∉ (deploy env o r t s).trace) := by
  refine ⟨countCommit_deploy env o r t s, fun h => ?_, fun h ht => ?_⟩
  · obtain ⟨hcfg, hmk, hcl, hsu, hf, hrec, hrm, hcp, had, hst⟩ := h
    rcases reconcile_cases env hrec with hl | ⟨hl, htk⟩ | ⟨hl, htk, ho⟩
    · cases hp : env.pullOk <;>
        simp [deploy, hcfg, hmk, deployInner, cloneStage, hcl, hsu, hf,
          reconcileStage, hl, hp, syncStage, hrm, hcp,
          stepThen_ok_eq, stepThen_error_eq,
          commit_mem_commitPushStage env s had hst]
    · simp [deploy, hcfg, hmk, deployInner, cloneStage, hcl, hsu, hf,
        reconcileStage, hl, htk, syncStage, hrm, hcp,
        stepThen_ok_eq, stepThen_error_eq,
        commit_mem_commitPushStage env s had hst]
    · simp [deploy, hcfg, hmk, deployInner, cloneStage, hcl, hsu, hf,
        reconcileStage, hl, htk, ho, syncStage, hrm, hcp,
        stepThen_ok_eq, stepThen_error_eq,
        commit_mem_commitPushStage env s had hst]
  · obtain ⟨hcfg, hmk, hcl, hsu, hf, hrec, hrm, hcp, had, hst⟩ := h
    rcases reconcile_cases env hrec with hl | ⟨hl, htk⟩ | ⟨hl, htk, ho⟩
    · cases hp : env.pullOk <;>
        simp [deploy, hcfg, hmk, deployInner, cloneStage, hcl, hsu, hf,
          reconcileStage, hl, hp, syncStage, hrm, hcp, commitPushStage,
          had, hst, ht, stepThen_ok_eq, stepThen_error_eq]
    · simp [deploy, hcfg, hmk, deployInner, cloneStage, hcl, hsu, hf,
        reconcileStage, hl, htk, syncStage, hrm, hcp, commitPushStage,
        had, hst, ht, stepThen_ok_eq, stepThen_error_eq]
    · simp [deploy, hcfg, hmk, deployInner, cloneStage, hcl, hsu, hf,
        reconcileStage, hl, htk, ho, syncStage, hrm, hcp, commitPushStage,
        had, hst, ht, stepThen_ok_eq, stepThen_error_eq]

theorem C5_single_commit_witness :
    countEv isCommitEv (deploy {} ("o") ("r") ("t") ("s")).trace ≤ 1 ∧
    (reachesStatusQuery {} →
      ((Ev.commit (commitMessage ("s")) ∈
          (deploy {} ("o") ("r") ("t") ("s")).trace) ↔
        ¬jsTrim ({} : Env).statusOutput = "")) ∧
    (reachesStatusQuery {} → jsTrim ({} : Env).statusOutput = "" →
      (deploy {} ("o") ("r") ("t") ("s")).result =
        Except.ok DeployOutcome.noChanges ∧
      Ev.push ∉ (deploy {} ("o") ("r") ("t") ("s")).trace ∧
      Ev.forcePush ∉ (deploy {} ("o") ("r") ("t") ("s")).trace) :=
  C5_single_commit {} ("o") ("r") ("t") ("s")

/-- C6: on every execution path on which the ephemeral workspace was
created, the workspace removal step runs, whatever else succeeded or
failed; the run's result never depends on whether that removal succeeds;
and a removal failure is reported as a warning line. -/
theorem C6_workspace_cleanup (env : Env) (o r t s : String) :
    (Ev.mkWorkspace ∈ (deploy env o r t s).trace →
        Ev.removeWorkspace ∈ (deploy env o r t s).trace) ∧
    (∀ b, (deploy { env with cleanupOk := b } o r t s).result =
        (deploy env o r t s).result) ∧
    (env.configOk = true → env.mkdtempOk = true → env.cleanupOk = false →
        cleanupWarning env.cleanupErrMsg ∈ (deploy env o r t s).logs) := by
  refine ⟨fun hmem => ?_, fun b => deploy_result_cleanup env b o r t s,
    fun hcfg hmk hcl => ?_⟩
  · cases hc : env.configOk <;> cases hm : env.mkdtempOk <;>
      simp [deploy, hc, hm] at hmem ⊢
  · simp [deploy, hcfg, hmk, hcl]

theorem C6_workspace_cleanup_witness :
    (Ev.mkWorkspace ∈ (deploy { cleanupOk := false, cleanupErrMsg := "EBUSY" }
        ("o") ("r") ("t") ("s")).trace →
      Ev.removeWorkspace ∈ (deploy { cleanupOk := false, cleanupErrMsg := "EBUSY" }
        ("o") ("r") ("t") ("s")).trace) ∧
    (∀ b, (deploy { ({ cleanupOk := false, cleanupErrMsg := "EBUSY" } : Env) with
          cleanupOk := b } ("o") ("r") ("t") ("s")).result =
        (deploy { cleanupOk := false, cleanupErrMsg := "EBUSY" }
          ("o") ("r") ("t") ("s")).result) ∧
    (({ cleanupOk := false, cleanupErrMsg := "EBUSY" } : Env).configOk = true →
      ({ cleanupOk := false, cleanupErrMsg := "EBUSY" } : Env).mkdtempOk = true →
      ({ cleanupOk := false, cleanupErrMsg := "EBUSY" } : Env).cleanupOk = false →
      cleanupWarning ({ cleanupOk := false, cleanupErrMsg := "EBUSY" } : Env).cleanupErrMsg ∈
        (deploy { cleanupOk := false, cleanupErrMsg := "EBUSY" }
          ("o") ("r") ("t") ("s")).logs) :=
  C6_workspace_cleanup { cleanupOk := false, cleanupErrMsg := "EBUSY" }
    ("o") ("r") ("t") ("s")

/-- C7: the credential is never part of the clone invocation: every clone
action uses the credential-free URL; the authenticated x-access-token URL
is installed only by the separate remote set-url action, which comes
strictly after the clone; and the emitted log lines are identical for any
two tokens, so the set-url argument is never logged. -/
theorem C7_credential_isolation (env : Env) (o r t₁ t₂ s : String) :
    (∀ u, Ev.clone u ∈ (deploy env o r t₁ s).trace → u = plainUrl o r) ∧
    (∀ u, Ev.setRemoteUrl u ∈ (deploy env o r t₁ s).trace →
        u = authenticatedUrl o r t₁) ∧
    (env.configOk = true → env.mkdtempOk = true → env.cloneOk = true →
        ∃ rest, (deploy env o r t₁ s).trace =
          [Ev.gitConfig, Ev.mkWorkspace, Ev.clone (plainUrl o r),
           Ev.setRemoteUrl (authenticatedUrl o r t₁)] ++ rest) ∧
    (deploy env o r t₁ s).logs = (deploy env o r t₂ s).logs := by
  refine ⟨fun u hu => ?_, fun u hu => ?_, fun hcfg hmk hcl => ?_,
    deploy_logs_token env o r t₁ t₂ s⟩
  · cases hc : env.configOk
    · simp [deploy, hc] at hu
    · cases hm : env.mkdtempOk
      · simp [deploy, hc, hm] at hu
      · simp [deploy, hc, hm] at hu
        rcases mem_stepThen_elim _ (cloneStage env o r t₁) _ hu with h | ⟨a, h⟩
        · exact clone_url_cloneStage env o r t₁ u h
        · rcases mem_stepThen_elim _ (reconcileStage env) _ h with h2 | ⟨a2, h2⟩
          · rcases reconcileStage_events env _ h2 with h3 | h3 | h3 | h3 <;>
              simp at h3
          · rcases tail_events env s _ h2 with h3 | h3 | h3 | h3 | h3 | h3 | h3 <;>
              simp at h3
  · cases hc : env.configOk
    · simp [deploy, hc] at hu
    · cases hm : env.mkdtempOk
      · simp [deploy, hc, hm] at hu
      · simp [deploy, hc, hm] at hu
        rcases mem_stepThen_elim _ (cloneStage env o r t₁) _ hu with h | ⟨a, h⟩
        · exact setUrl_cloneStage env o r t₁ u h
        · rcases mem_stepThen_elim _ (reconcileStage env) _ h with h2 | ⟨a2, h2⟩
          · rcases reconcileStage_events env _ h2 with h3 | h3 | h3 | h3 <;>
              simp at h3
          · rcases tail_events env s _ h2 with h3 | h3 | h3 | h3 | h3 | h3 | h3 <;>
              simp at h3
  · cases hsu : env.setUrlOk
    · refine ⟨[Ev.removeWorkspace], ?_⟩
      simp [deploy, hcfg, hmk, deployInner, cloneStage, hcl, hsu,
        stepThen_ok_eq, stepThen_error_eq]
    · cases hf : env.fetchOk
      · refine ⟨[Ev.fetch, Ev.removeWorkspace], ?_⟩
        simp [deploy, hcfg, hmk, deployInner, cloneStage, hcl, hsu, hf,
          stepThen_ok_eq, stepThen_error_eq]
      · refine ⟨[Ev.fetch] ++ (stepThen (reconcileStage env) (fun _ =>
          stepThen (syncStage env) (fun _ => commitPushStage env s))).2.1 ++
          [Ev.removeWorkspace], ?_⟩
        simp [deploy, hcfg, hmk, deployInner, cloneStage, hcl, hsu, hf,
          stepThen_ok_eq, stepThen_error_eq]

theorem C7_credential_isolation_witness :
    (∀ u, Ev.clone u ∈ (deploy {} ("o") ("r") ("tok1") ("s")).trace →
        u = plainUrl ("o") ("r")) ∧
    (∀ u, Ev.setRemoteUrl u ∈ (deploy {} ("o") ("r") ("tok1") ("s")).trace →
        u = authenticatedUrl ("o") ("r") ("tok1")) ∧
    (({} : Env).configOk = true → ({} : Env).mkdtempOk = true →
      ({} : Env).cloneOk = true →
        ∃ rest, (deploy {} ("o") ("r") ("tok1") ("s")).trace =
          [Ev.gitConfig, Ev.mkWorkspace, Ev.clone (plainUrl ("o") ("r")),
           Ev.setRemoteUrl (authenticatedUrl ("o") ("r") ("tok1"))] ++ rest) ∧
    (deploy {} ("o") ("r") ("tok1") ("s")).logs =
      (deploy {} ("o") ("r") ("tok2") ("s")).logs :=
  C7_credential_isolation {} ("o") ("r") ("tok1") ("tok2") ("s")

/-- C9: credential validation is a pre-flight check: when it fails (with
the inputs present), the run terminates with the authentication error and
its whole trace consists of the single validation call — in particular no
workspace was created, nothing was cloned and no build ran. -/
theorem C9_preflight_validation (re : RunEnv)
    (h1 : ¬re.contentPathInput = "") (h2 : ¬re.githubTokenInput = "")
    (hv : re.tokenValid = false) :
    (runAction re).1 = RunOutcome.failed (errMessage Err.tokenInvalid) ∧
    (runAction re).2.1 = [Ev.validateToken] ∧
    Ev.mkWorkspace ∉ (runAction re).2.1 ∧
    (∀ u, Ev.clone u ∉ (runAction re).2.1) ∧
    Ev.speedDocsBuild ∉ (runAction re).2.1 := by
  simp [runAction, runPipeline, getInputs, h1, h2, hv]

theorem C9_preflight_validation_witness :
    ¬({ tokenValid := false } : RunEnv).contentPathInput = "" ∧
    ¬({ tokenValid := false } : RunEnv).githubTokenInput = "" ∧
    ((runAction { tokenValid := false }).1 =
        RunOutcome.failed (errMessage Err.tokenInvalid) ∧
      (runAction { tokenValid := false }).2.1 = [Ev.validateToken] ∧
      Ev.mkWorkspace ∉ (runAction { tokenValid := false }).2.1 ∧
      (∀ u, Ev.clone u ∉ (runAction { tokenValid := false }).2.1) ∧
      Ev.speedDocsBuild ∉ (runAction { tokenValid := false }).2.1) :=
  ⟨by decide, by decide,
   C9_preflight_validation { tokenValid := false } (by decide) (by decide) rfl⟩

/-- C10: for every input and every error raised at any stage, the
top-level run entry point terminates in exactly one of the two outcomes:
success when the pipeline succeeded, or a failed outcome carrying the
raised error's message — no exception escapes. -/
theorem C10_catch_all (re : RunEnv) :
    ((∃ d, (runPipeline re).1 = Except.ok d) ∧
      (runAction re).1 = RunOutcome.success) ∨
    (∃ e, (runPipeline re).1 = Except.error e ∧
      (runAction re).1 = RunOutcome.failed (errMessage e)) := by
  cases h : (runPipeline re).1 with
  | ok d => exact Or.inl ⟨⟨d, rfl⟩, by simp [runAction, h]⟩
  | error e => exact Or.inr ⟨e, rfl, by simp [runAction, h]⟩

end SpeedDocs
